import Mathlib

/-!
Shallow embedding of `src/Automation/LinkedIn/app.py` (a single-file
browser-automation login script) together with proofs about its behaviour.

Modelling conventions:
* Strings are Lean `String`s; the regular-expression machinery works on
  `List Char` (`String.data`).
* The regular expression literal at app.py line 56 is transliterated into a
  small regex AST (`RE`) and matched with a Brzozowski-derivative matcher;
  Python's `re.match` with a trailing `$` is modelled by `reMatch`, which
  accepts a match of the whole string or of the string minus one trailing
  newline (CPython semantics of `$` outside MULTILINE mode).
  Character classes (`\d`, `[a-zA-Z]`, ...) are read as their ASCII contents.
* Selenium driver calls are fallible: each call site in `login` gets an
  `Option String` fault slot in `DriverEnv` (`some msg` means the call raises
  an exception carrying `msg`).  `try/except` becomes explicit control flow.
* Logging becomes an accumulated `List LogEntry`; browser side effects become
  an accumulated `List BotAction`.
-/

namespace LinkedIn

/-! ### Regular expressions, Brzozowski style -/

/-- Regex AST: empty language, empty string, character class, alternation,
concatenation, Kleene star. -/
inductive RE where
  | emp : RE
  | eps : RE
  | cls : (Char → Bool) → RE
  | alt : RE → RE → RE
  | seqr : RE → RE → RE
  | star : RE → RE

/-- Does the regex accept the empty string? -/
def nullable : RE → Bool
  | .emp => false
  | .eps => true
  | .cls _ => false
  | .alt a b => nullable a || nullable b
  | .seqr a b => nullable a && nullable b
  | .star _ => true

/-- Brzozowski derivative with respect to a character. -/
def deriv : RE → Char → RE
  | .emp, _ => .emp
  | .eps, _ => .emp
  | .cls p, c => if p c then .eps else .emp
  | .alt a b, c => .alt (deriv a c) (deriv b c)
  | .seqr a b, c =>
      if nullable a then .alt (.seqr (deriv a c) b) (deriv b c)
      else .seqr (deriv a c) b
  | .star a, c => .seqr (deriv a c) (.star a)

/-- Whole-string match by iterated derivatives. -/
def reMatches (r : RE) : List Char → Bool
  | [] => nullable r
  | c :: t => reMatches (deriv r c) t

/-- Single literal character. -/
def chr (c : Char) : RE := .cls (fun d => d == c)

/-- `r?` -/
def optRE (r : RE) : RE := .alt .eps r

/-- `p+` for a character class. -/
def plusCls (p : Char → Bool) : RE := .seqr (.cls p) (.star (.cls p))

/-- Exactly `n` repetitions of class `p`. -/
def repExact (p : Char → Bool) : Nat → RE
  | 0 => .eps
  | n + 1 => .seqr (.cls p) (repExact p n)

/-- At most `n` repetitions of class `p`. -/
def upTo (p : Char → Bool) : Nat → RE
  | 0 => .eps
  | n + 1 => .alt .eps (.seqr (.cls p) (upTo p n))

/-! ### The pattern from app.py line 56

`r'^(\+?\d{10,14}|[a-zA-Z0-9._%+-]+@[a-zA-Z0-9.-]+\.[a-zA-Z]{2,})$'`
-/

/-- `[a-zA-Z0-9._%+-]` (local part of the email alternative). -/
def localChar (c : Char) : Bool :=
  c.isAlpha || c.isDigit || c == '.' || c == '_' || c == '%' || c == '+' || c == '-'

/-- `[a-zA-Z0-9.-]` (domain body of the email alternative). -/
def domainChar (c : Char) : Bool :=
  c.isAlpha || c.isDigit || c == '.' || c == '-'

/-- `\+?\d{10,14}`; the bounded repetition is desugared as ten mandatory
digits followed by up to four optional ones. -/
def phoneRE : RE :=
  .seqr (optRE (chr '+')) (.seqr (repExact Char.isDigit 10) (upTo Char.isDigit 4))

/-- `[a-zA-Z]{2,}`, desugared as two mandatory letters then any number more. -/
def tldRE : RE :=
  .seqr (repExact Char.isAlpha 2) (.star (.cls Char.isAlpha))

/-- `[a-zA-Z0-9._%+-]+@[a-zA-Z0-9.-]+\.[a-zA-Z]{2,}` -/
def emailRE : RE :=
  .seqr (plusCls localChar)
    (.seqr (chr '@') (.seqr (plusCls domainChar) (.seqr (chr '.') tldRE)))

/-- The alternation inside the anchors of `email_phone_pattern`. -/
def email_phone_pattern : RE := .alt phoneRE emailRE

/-- CPython `re.match` of `^r$` against `s`: the whole string matches, or the
string minus a single final newline matches (`$` also matches just before a
trailing newline). -/
def reMatch (r : RE) (s : List Char) : Bool :=
  reMatches r s ||
    (match s.getLast? with
     | some c => (c == '\n') && reMatches r s.dropLast
     | none => false)

/-! ### Spec-side structural characterization of the same pattern

These definitions follow the specification's words ("optional leading `+`,
10–14 digits" / "local-part, `@`, domain with a 2+ letter TLD") rather than
the matcher; the equivalence with `reMatches email_phone_pattern` is proved
below. -/

/-- 10 to 14 digits. -/
def phoneDigits (l : List Char) : Bool :=
  decide (10 ≤ l.length) && decide (l.length ≤ 14) && l.all Char.isDigit

/-- Optional leading `+`, then 10–14 digits. -/
def specPhone (l : List Char) : Bool :=
  match l with
  | c :: t => if c == '+' then phoneDigits t else phoneDigits (c :: t)
  | [] => phoneDigits []

/-- Is there a split `l = l₁ ++ sep :: l₂` with `f l₁` and `g l₂`? -/
def splitAnyAt (l : List Char) (sep : Char) (f g : List Char → Bool) : Bool :=
  (List.range (l.length + 1)).any fun i =>
    match l.drop i with
    | c :: rest => c == sep && f (l.take i) && g rest
    | [] => false

/-- A 2+ letter TLD. -/
def tldOk (l : List Char) : Bool :=
  decide (2 ≤ l.length) && l.all Char.isAlpha

/-- Non-empty domain body, a dot, then a TLD. -/
def domainSplit (l : List Char) : Bool :=
  splitAnyAt l '.' (fun d => !d.isEmpty && d.all domainChar) tldOk

/-- Non-empty local part, `@`, then domain-dot-TLD. -/
def specEmail (l : List Char) : Bool :=
  splitAnyAt l '@' (fun d => !d.isEmpty && d.all localChar) domainSplit

/-- The spec's identifier format: a phone shape or an email shape, exactly. -/
def specIdentifierOk (l : List Char) : Bool :=
  specPhone l || specEmail l

/-! ### Logging and browser actions -/

inductive LogLevel where
  | info : LogLevel
  | warning : LogLevel
  | error : LogLevel
deriving DecidableEq

structure LogEntry where
  level : LogLevel
  msg : String
deriving DecidableEq

def infoEntry (m : String) : LogEntry := ⟨.info, m⟩
def warnEntry (m : String) : LogEntry := ⟨.warning, m⟩
def errEntry (m : String) : LogEntry := ⟨.error, m⟩

def isErrorEntry (e : LogEntry) : Bool :=
  match e.level with
  | .error => true
  | _ => false

/-- Number of error-level lines in a log. -/
def errorCount (ls : List LogEntry) : Nat := ls.countP isErrorEntry

/-- Browser side effects performed through the Selenium driver. -/
inductive BotAction where
  | navigate : String → BotAction
  | clearField : String → BotAction
  | sendKeys : String → BotAction
  | click : BotAction
  | quit : BotAction
deriving DecidableEq

/-- Python `'feed' in url`: substring containment. -/
def containsSub (l pat : List Char) : Bool :=
  (List.range (l.length + 1)).any fun i => pat.isPrefixOf (l.drop i)

/-! ### validate_credentials (app.py lines 49–66) -/

/-- `LinkedInBot.validate_credentials`: regex check on the username, then a
length check on the password.  Returns the boolean result and the log lines
emitted. -/
def validate_credentials (username password : String) : Bool × List LogEntry :=
  if !(reMatch email_phone_pattern username.data) then
    (false, [errEntry "Invalid email or phone number format"])
  else if password.length < 8 then
    (false, [errEntry "Password too short"])
  else
    (true, [])

/-! ### Expected conditions and Python `or` (app.py lines 105–108) -/

/-- Page state a wait condition is evaluated against. -/
structure PageState where
  url : String
  elementIds : List String
deriving DecidableEq

/-- The two Selenium expected-condition objects built at app.py 106–107. -/
inductive ECond where
  | urlContains : String → ECond
  | presenceOfElementById : String → ECond
deriving DecidableEq

/-- Evaluating a condition object against a page state. -/
def evalCond : ECond → PageState → Bool
  | .urlContains s, st => containsSub st.url.data s.data
  | .presenceOfElementById i, st => st.elementIds.contains i

/-- Python truthiness of an expected-condition object: any such object is a
non-None object, hence truthy. -/
def pyTruthy (_ : ECond) : Bool := true

/-- Python `a or b` on objects: evaluates both operands eagerly in our pure
model, returns `a` when `a` is truthy, else `b`. -/
def pyOr (a b : ECond) : ECond := if pyTruthy a then a else b

/-- The argument actually passed to `WebDriverWait(...).until` at
app.py 105–108. -/
def loginWaitCondition : ECond :=
  pyOr (.urlContains "feed") (.presenceOfElementById "challenge")

/-! ### login (app.py lines 68–120) -/

/-- Fault injection for every Selenium call site inside `login`'s `try`
block: `some msg` means that call raises an exception rendered as `msg`.
`currentUrl` is what `self.driver.current_url` reads after the wait. -/
structure DriverEnv where
  navigateFault : Option String
  usernameWaitFault : Option String
  usernameClearFault : Option String
  usernameKeysFault : Option String
  passwordFindFault : Option String
  passwordClearFault : Option String
  passwordKeysFault : Option String
  buttonFindFault : Option String
  clickFault : Option String
  outcomeWaitFault : Option String
  currentUrl : String
deriving DecidableEq

/-- Is any fault injected? -/
def envHasFault (env : DriverEnv) : Bool :=
  env.navigateFault.isSome || env.usernameWaitFault.isSome ||
  env.usernameClearFault.isSome || env.usernameKeysFault.isSome ||
  env.passwordFindFault.isSome || env.passwordClearFault.isSome ||
  env.passwordKeysFault.isSome || env.buttonFindFault.isSome ||
  env.clickFault.isSome || env.outcomeWaitFault.isSome

/-- The `except` handler's log line (app.py 119). -/
def loginFailedLog (e : String) : LogEntry := errEntry ("Login failed: " ++ e)

/-- `LinkedInBot.login`: validate, then drive the browser; any exception in
the `try` block is caught and converted to `false` plus one error log line.
Returns (result, logs emitted, driver actions performed). -/
def login (username password : String) (env : DriverEnv) :
    Bool × List LogEntry × List BotAction :=
  let v := validate_credentials username password
  if !v.1 then
    (false, v.2, [])
  else
    match env.navigateFault with
    | some e => (false, v.2 ++ [loginFailedLog e], [.navigate "https://www.linkedin.com/login"])
    | none =>
      let logs1 := v.2 ++ [infoEntry "Navigated to LinkedIn login page"]
      let acts1 : List BotAction := [.navigate "https://www.linkedin.com/login"]
      match env.usernameWaitFault with
      | some e => (false, logs1 ++ [loginFailedLog e], acts1)
      | none =>
        match env.usernameClearFault with
        | some e => (false, logs1 ++ [loginFailedLog e], acts1 ++ [.clearField "session_key"])
        | none =>
          let acts2 := acts1 ++ [BotAction.clearField "session_key"]
          match env.usernameKeysFault with
          | some e => (false, logs1 ++ [loginFailedLog e], acts2 ++ [.sendKeys "session_key"])
          | none =>
            let logs2 := logs1 ++ [infoEntry "Username entered"]
            let acts3 := acts2 ++ [BotAction.sendKeys "session_key"]
            match env.passwordFindFault with
            | some e => (false, logs2 ++ [loginFailedLog e], acts3)
            | none =>
              match env.passwordClearFault with
              | some e => (false, logs2 ++ [loginFailedLog e], acts3 ++ [.clearField "session_password"])
              | none =>
                let acts4 := acts3 ++ [BotAction.clearField "session_password"]
                match env.passwordKeysFault with
                | some e => (false, logs2 ++ [loginFailedLog e], acts4 ++ [.sendKeys "session_password"])
                | none =>
                  let logs3 := logs2 ++ [infoEntry "Password entered"]
                  let acts5 := acts4 ++ [BotAction.sendKeys "session_password"]
                  match env.buttonFindFault with
                  | some e => (false, logs3 ++ [loginFailedLog e], acts5)
                  | none =>
                    match env.clickFault with
                    | some e => (false, logs3 ++ [loginFailedLog e], acts5 ++ [.click])
                    | none =>
                      let logs4 := logs3 ++ [infoEntry "Sign in button clicked"]
                      let acts6 := acts5 ++ [BotAction.click]
                      match env.outcomeWaitFault with
                      | some e => (false, logs4 ++ [loginFailedLog e], acts6)
                      | none =>
                        if containsSub env.currentUrl.data "feed".data then
                          (true, logs4 ++ [infoEntry "Successfully logged in!"], acts6)
                        else
                          (false, logs4 ++ [warnEntry "Login may require additional verification"], acts6)

/-! ### close (app.py lines 122–128) -/

/-- `LinkedInBot.close`: `if self.driver: self.driver.quit()` then an info
log.  `driverPresent` models the truthiness of `self.driver`; `quitFault`
models `quit()` raising.  Returns (exception escaping close, logs emitted,
whether quit was invoked). -/
def close (driverPresent : Bool) (quitFault : Option String) :
    Option String × List LogEntry × Bool :=
  if driverPresent then
    match quitFault with
    | some e => (some e, [], true)
    | none => (none, [infoEntry "Browser session closed"], true)
  else
    (none, [infoEntry "Browser session closed"], false)

/-! ### main (app.py lines 130–151) -/

/-- Environment of a top-level run: the two environment variables, a possible
constructor fault, the driver behaviour for `login`, and a possible fault from
`driver.quit()` inside `close`. -/
structure MainEnv where
  envUsername : Option String
  envPassword : Option String
  constructFault : Option String
  driverEnv : DriverEnv
  quitFault : Option String
deriving DecidableEq

/-- Observable outcome of a run of `main`. -/
structure MainResult where
  usedUsername : String
  usedPassword : String
  closeCalls : Nat
  quitCalls : Nat
  raised : Option String
  logs : List LogEntry
deriving DecidableEq

/-- `main`: read credentials with placeholder defaults, construct the bot,
log in, warn on failure; the `except` clause catches faults from the `try`
body; the `finally` clause calls `close()` when the bot was constructed.  An
exception raised by `close()` inside `finally` is not covered by the
`except` clause and escapes `main`. -/
def main (menv : MainEnv) : MainResult :=
  let username := menv.envUsername.getD "your_email_or_phone"
  let password := menv.envPassword.getD "your_password"
  match menv.constructFault with
  | some e =>
      { usedUsername := username, usedPassword := password,
        closeCalls := 0, quitCalls := 0, raised := none,
        logs := [errEntry ("Unexpected error: " ++ e)] }
  | none =>
      let lr := login username password menv.driverEnv
      let bodyLogs := lr.2.1 ++
        (if lr.1 then []
         else [warnEntry "Login unsuccessful or requires additional verification"])
      let cl := close true menv.quitFault
      { usedUsername := username, usedPassword := password,
        closeCalls := 1, quitCalls := if cl.2.2 then 1 else 0,
        raised := cl.1, logs := bodyLogs ++ cl.2.1 }

/-- A driver environment with no injected faults and an empty URL. -/
def idleDriverEnv : DriverEnv :=
  ⟨none, none, none, none, none, none, none, none, none, none, ""⟩

/-! ### Lemmas about the derivative matcher -/

theorem matches_emp (l : List Char) : reMatches .emp l = false := by
  induction l with
  | nil => rfl
  | cons c t ih => simpa [reMatches, deriv] using ih

theorem matches_eps (l : List Char) : reMatches .eps l = true ↔ l = [] := by
  cases l with
  | nil => simp [reMatches, nullable]
  | cons c t => simp [reMatches, deriv, matches_emp]

theorem matches_cls (p : Char → Bool) (l : List Char) :
    reMatches (.cls p) l = true ↔ ∃ c, l = [c] ∧ p c = true := by
  cases l with
  | nil => simp [reMatches, nullable]
  | cons c t =>
    simp only [reMatches, deriv]
    by_cases h : p c = true
    · rw [if_pos h, matches_eps]
      constructor
      · rintro rfl
        exact ⟨c, rfl, h⟩
      · rintro ⟨d, hd, _⟩
        simp only [List.cons.injEq] at hd
        exact hd.2
    · rw [if_neg h]
      constructor
      · intro hm
        rw [matches_emp] at hm
        exact absurd hm (by simp)
      · rintro ⟨d, hd, hpd⟩
        simp only [List.cons.injEq] at hd
        obtain ⟨rfl, rfl⟩ := hd
        exact absurd hpd h

theorem matches_alt (a b : RE) (l : List Char) :
    reMatches (.alt a b) l = (reMatches a l || reMatches b l) := by
  induction l generalizing a b with
  | nil => rfl
  | cons c t ih => simpa [reMatches, deriv] using ih (deriv a c) (deriv b c)

theorem matches_seq (l : List Char) (a b : RE) :
    reMatches (.seqr a b) l = true ↔
      ∃ l1 l2, l = l1 ++ l2 ∧ reMatches a l1 = true ∧ reMatches b l2 = true := by
  induction l generalizing a with
  | nil =>
    simp only [reMatches, nullable, Bool.and_eq_true]
    constructor
    · rintro ⟨ha, hb⟩
      exact ⟨[], [], rfl, ha, hb⟩
    · rintro ⟨l1, l2, h, ha, hb⟩
      rcases List.append_eq_nil.mp h.symm with ⟨rfl, rfl⟩
      exact ⟨ha, hb⟩
  | cons c t ih =>
    simp only [reMatches, deriv]
    by_cases hn : nullable a = true
    · rw [if_pos hn, matches_alt]
      simp only [Bool.or_eq_true]
      constructor
      · rintro (h | h)
        · rcases (ih (deriv a c)).mp h with ⟨t1, t2, ht, ha, hb⟩
          exact ⟨c :: t1, t2, by simp [ht], ha, hb⟩
        · exact ⟨[], c :: t, rfl, hn, h⟩
      · rintro ⟨l1, l2, hl, ha, hb⟩
        cases l1 with
        | nil =>
          right
          simp only [List.nil_append] at hl
          subst hl
          exact hb
        | cons x t1 =>
          left
          simp only [List.cons_append, List.cons.injEq] at hl
          obtain ⟨rfl, ht⟩ := hl
          exact (ih (deriv a c)).mpr ⟨t1, l2, ht, ha, hb⟩
    · rw [if_neg hn]
      constructor
      · intro h
        rcases (ih (deriv a c)).mp h with ⟨t1, t2, ht, ha, hb⟩
        exact ⟨c :: t1, t2, by simp [ht], ha, hb⟩
      · rintro ⟨l1, l2, hl, ha, hb⟩
        cases l1 with
        | nil =>
          simp only [List.nil_append] at hl
          exact absurd ha hn
        | cons x t1 =>
          simp only [List.cons_append, List.cons.injEq] at hl
          obtain ⟨rfl, ht⟩ := hl
          exact (ih (deriv a c)).mpr ⟨t1, l2, ht, ha, hb⟩

theorem matches_star_cls (p : Char → Bool) (l : List Char) :
    reMatches (.star (.cls p)) l = true ↔ l.all p = true := by
  induction l with
  | nil => simp [reMatches, nullable]
  | cons c t ih =>
    simp only [reMatches, deriv, List.all_cons, Bool.and_eq_true]
    by_cases hp : p c = true
    · rw [if_pos hp, matches_seq]
      constructor
      · rintro ⟨l1, l2, hl, h1, h2⟩
        rcases (matches_eps l1).mp h1 with rfl
        simp only [List.nil_append] at hl
        subst hl
        exact ⟨hp, ih.mp h2⟩
      · rintro ⟨_, hall⟩
        exact ⟨[], t, rfl, (matches_eps []).mpr rfl, ih.mpr hall⟩
    · rw [if_neg hp, matches_seq]
      constructor
      · rintro ⟨l1, l2, hl, h1, h2⟩
        rw [matches_emp] at h1
        exact absurd h1 (by simp)
      · rintro ⟨hc, _⟩
        exact absurd hc hp

theorem matches_chr (c : Char) (l : List Char) :
    reMatches (chr c) l = true ↔ l = [c] := by
  rw [chr, matches_cls]
  constructor
  · rintro ⟨d, rfl, hd⟩
    rw [beq_iff_eq] at hd
    rw [hd]
  · rintro rfl
    exact ⟨c, rfl, beq_self_eq_true c⟩

theorem matches_opt_chr (c : Char) (l : List Char) :
    reMatches (optRE (chr c)) l = true ↔ l = [] ∨ l = [c] := by
  rw [optRE, matches_alt]
  simp only [Bool.or_eq_true]
  exact or_congr (matches_eps l) (matches_chr c l)

theorem matches_plus_cls (p : Char → Bool) (l : List Char) :
    reMatches (plusCls p) l = true ↔ l ≠ [] ∧ l.all p = true := by
  rw [plusCls, matches_seq]
  constructor
  · rintro ⟨l1, l2, rfl, h1, h2⟩
    rcases (matches_cls p l1).mp h1 with ⟨c, rfl, hc⟩
    rw [matches_star_cls] at h2
    simp [hc, h2]
  · rintro ⟨hne, hall⟩
    cases l with
    | nil => exact absurd rfl hne
    | cons c t =>
      simp only [List.all_cons, Bool.and_eq_true] at hall
      exact ⟨[c], t, rfl, (matches_cls p [c]).mpr ⟨c, rfl, hall.1⟩,
        (matches_star_cls p t).mpr hall.2⟩

theorem matches_repExact (p : Char → Bool) (n : Nat) (l : List Char) :
    reMatches (repExact p n) l = true ↔ l.length = n ∧ l.all p = true := by
  induction n generalizing l with
  | zero =>
    rw [repExact, matches_eps]
    constructor
    · rintro rfl; simp
    · rintro ⟨h, _⟩
      exact List.length_eq_zero.mp h
  | succ n ih =>
    rw [repExact, matches_seq]
    constructor
    · rintro ⟨l1, l2, rfl, h1, h2⟩
      rcases (matches_cls p l1).mp h1 with ⟨c, rfl, hc⟩
      rcases ih l2 |>.mp h2 with ⟨hlen, hall⟩
      simp [hc, hall, hlen]
    · rintro ⟨hlen, hall⟩
      cases l with
      | nil => simp at hlen
      | cons c t =>
        simp only [List.length_cons, Nat.succ.injEq] at hlen
        simp only [List.all_cons, Bool.and_eq_true] at hall
        exact ⟨[c], t, rfl, (matches_cls p [c]).mpr ⟨c, rfl, hall.1⟩,
          (ih t).mpr ⟨hlen, hall.2⟩⟩

theorem matches_upTo (p : Char → Bool) (n : Nat) (l : List Char) :
    reMatches (upTo p n) l = true ↔ l.length ≤ n ∧ l.all p = true := by
  induction n generalizing l with
  | zero =>
    rw [upTo, matches_eps]
    constructor
    · rintro rfl; simp
    · rintro ⟨h, _⟩
      exact List.length_eq_zero.mp (Nat.le_zero.mp h)
  | succ n ih =>
    rw [upTo, matches_alt]
    simp only [Bool.or_eq_true, matches_eps, matches_seq]
    constructor
    · rintro (rfl | ⟨l1, l2, rfl, h1, h2⟩)
      · simp
      · rcases (matches_cls p l1).mp h1 with ⟨c, rfl, hc⟩
        rcases (ih l2).mp h2 with ⟨hlen, hall⟩
        simp only [List.singleton_append, List.length_cons, List.all_cons,
          Bool.and_eq_true]
        exact ⟨Nat.succ_le_succ hlen, hc, hall⟩
    · rintro ⟨hlen, hall⟩
      cases l with
      | nil => exact Or.inl rfl
      | cons c t =>
        right
        simp only [List.length_cons] at hlen
        simp only [List.all_cons, Bool.and_eq_true] at hall
        exact ⟨[c], t, rfl, (matches_cls p [c]).mpr ⟨c, rfl, hall.1⟩,
          (ih t).mpr ⟨Nat.le_of_succ_le_succ hlen, hall.2⟩⟩

theorem all_of_all_take (p : Char → Bool) (n : Nat) (l : List Char)
    (h : l.all p = true) : (l.take n).all p = true := by
  rw [List.all_eq_true] at h ⊢
  exact fun x hx => h x (List.mem_of_mem_take hx)

theorem all_of_all_drop (p : Char → Bool) (n : Nat) (l : List Char)
    (h : l.all p = true) : (l.drop n).all p = true := by
  rw [List.all_eq_true] at h ⊢
  exact fun x hx => h x (List.mem_of_mem_drop hx)

theorem matches_rep_range (p : Char → Bool) (m n : Nat) (l : List Char) :
    reMatches (.seqr (repExact p m) (upTo p n)) l = true ↔
      m ≤ l.length ∧ l.length ≤ m + n ∧ l.all p = true := by
  rw [matches_seq]
  constructor
  · rintro ⟨l1, l2, rfl, h1, h2⟩
    rcases (matches_repExact p m l1).mp h1 with ⟨hlen1, hall1⟩
    rcases (matches_upTo p n l2).mp h2 with ⟨hlen2, hall2⟩
    refine ⟨?_, ?_, ?_⟩
    · simp [List.length_append, hlen1]
    · simp only [List.length_append, hlen1]
      omega
    · simp [List.all_append, hall1, hall2]
  · rintro ⟨h1, h2, hall⟩
    refine ⟨l.take m, l.drop m, (List.take_append_drop m l).symm, ?_, ?_⟩
    · rw [matches_repExact]
      exact ⟨by simp [List.length_take]; omega, all_of_all_take p m l hall⟩
    · rw [matches_upTo]
      exact ⟨by simp [List.length_drop]; omega, all_of_all_drop p m l hall⟩

theorem matches_tld (l : List Char) :
    reMatches tldRE l = true ↔ tldOk l = true := by
  rw [tldRE, matches_seq, tldOk]
  simp only [Bool.and_eq_true, decide_eq_true_eq]
  constructor
  · rintro ⟨l1, l2, rfl, h1, h2⟩
    rcases (matches_repExact Char.isAlpha 2 l1).mp h1 with ⟨hlen, hall1⟩
    rw [matches_star_cls] at h2
    refine ⟨?_, ?_⟩
    · simp [List.length_append, hlen]
    · simp [List.all_append, hall1, h2]
  · rintro ⟨hlen, hall⟩
    refine ⟨l.take 2, l.drop 2, (List.take_append_drop 2 l).symm, ?_, ?_⟩
    · rw [matches_repExact]
      exact ⟨by simp [List.length_take]; omega, all_of_all_take Char.isAlpha 2 l hall⟩
    · rw [matches_star_cls]
      exact all_of_all_drop Char.isAlpha 2 l hall

/-! ### Equivalence of the matcher with the structural characterizations -/

theorem splitAnyAt_iff (l : List Char) (sep : Char) (f g : List Char → Bool) :
    splitAnyAt l sep f g = true ↔
      ∃ l1 l2, l = l1 ++ sep :: l2 ∧ f l1 = true ∧ g l2 = true := by
  rw [splitAnyAt, List.any_eq_true]
  constructor
  · rintro ⟨i, _, hp⟩
    cases hdrop : l.drop i with
    | nil =>
      rw [hdrop] at hp
      simp at hp
    | cons c rest =>
      rw [hdrop] at hp
      simp only [Bool.and_eq_true, beq_iff_eq] at hp
      obtain ⟨⟨rfl, hf⟩, hg⟩ := hp
      refine ⟨l.take i, rest, ?_, hf, hg⟩
      have h := (List.take_append_drop i l).symm
      rw [hdrop] at h
      exact h
  · rintro ⟨l1, l2, rfl, hf, hg⟩
    refine ⟨l1.length, ?_, ?_⟩
    · rw [List.mem_range, List.length_append, List.length_cons]
      omega
    · have hdrop : (l1 ++ sep :: l2).drop l1.length = sep :: l2 :=
        List.drop_left l1 (sep :: l2)
      have htake : (l1 ++ sep :: l2).take l1.length = l1 :=
        List.take_left l1 (sep :: l2)
      rw [hdrop, htake]
      simp [hf, hg]

theorem matches_phoneRE (l : List Char) :
    reMatches phoneRE l = true ↔ specPhone l = true := by
  rw [phoneRE, matches_seq]
  constructor
  · rintro ⟨l1, l2, rfl, h1, h2⟩
    rcases (matches_opt_chr '+' l1).mp h1 with rfl | rfl
    · rw [List.nil_append]
      rcases (matches_rep_range Char.isDigit 10 4 l2).mp h2 with ⟨hge, hle, hall⟩
      cases l2 with
      | nil => simp at hge
      | cons c t =>
        have hall' := hall
        simp only [List.all_cons, Bool.and_eq_true] at hall'
        have hc : c.isDigit = true := hall'.1
        have hcne : (c == '+') = false := by
          cases heq : c == '+' with
          | false => rfl
          | true =>
            rw [beq_iff_eq] at heq
            subst heq
            exact absurd hc (by decide)
        have hpd : phoneDigits (c :: t) = true := by
          rw [phoneDigits]
          simp only [Bool.and_eq_true, decide_eq_true_eq]
          exact ⟨⟨hge, hle⟩, hall⟩
        simp [specPhone, hcne, hpd]
    · rcases (matches_rep_range Char.isDigit 10 4 l2).mp h2 with ⟨hge, hle, hall⟩
      have hpd : phoneDigits l2 = true := by
        rw [phoneDigits]
        simp only [Bool.and_eq_true, decide_eq_true_eq]
        exact ⟨⟨hge, hle⟩, hall⟩
      simp [specPhone, hpd]
  · intro h
    cases l with
    | nil => simp [specPhone, phoneDigits] at h
    | cons c t =>
      by_cases hc : (c == '+') = true
      · rw [beq_iff_eq] at hc
        subst hc
        have hpd : phoneDigits t = true := by simpa [specPhone] using h
        rw [phoneDigits] at hpd
        simp only [Bool.and_eq_true, decide_eq_true_eq] at hpd
        refine ⟨['+'], t, rfl, (matches_opt_chr '+' ['+']).mpr (Or.inr rfl), ?_⟩
        rw [matches_rep_range]
        exact ⟨hpd.1.1, by omega, hpd.2⟩
      · have hcne : (c == '+') = false := by
          cases heq : c == '+' with
          | false => rfl
          | true => exact absurd heq hc
        have hpd : phoneDigits (c :: t) = true := by
          simpa [specPhone, hcne] using h
        rw [phoneDigits] at hpd
        simp only [Bool.and_eq_true, decide_eq_true_eq] at hpd
        refine ⟨[], c :: t, rfl, (matches_opt_chr '+' []).mpr (Or.inl rfl), ?_⟩
        rw [matches_rep_range]
        exact ⟨hpd.1.1, by omega, hpd.2⟩

theorem ne_nil_of_isEmpty_false (l : List Char) (h : l.isEmpty = false) :
    l ≠ [] := by
  cases l with
  | nil => simp at h
  | cons c t => simp

theorem isEmpty_false_of_ne_nil (l : List Char) (h : l ≠ []) :
    l.isEmpty = false := by
  cases l with
  | nil => exact absurd rfl h
  | cons c t => rfl

theorem matches_emailRE (l : List Char) :
    reMatches emailRE l = true ↔ specEmail l = true := by
  rw [emailRE]
  constructor
  · intro h
    rw [matches_seq] at h
    obtain ⟨a, r1, rfl, ha, h⟩ := h
    rw [matches_plus_cls] at ha
    rw [matches_seq] at h
    obtain ⟨x, r2, rfl, hx, h⟩ := h
    rw [matches_chr] at hx
    subst hx
    rw [matches_seq] at h
    obtain ⟨d, r3, rfl, hd, h⟩ := h
    rw [matches_plus_cls] at hd
    rw [matches_seq] at h
    obtain ⟨y, tl, rfl, hy, htl⟩ := h
    rw [matches_chr] at hy
    subst hy
    rw [matches_tld] at htl
    rw [specEmail, splitAnyAt_iff]
    refine ⟨a, d ++ '.' :: tl, by simp, ?_, ?_⟩
    · simp [isEmpty_false_of_ne_nil a ha.1, ha.2]
    · rw [domainSplit, splitAnyAt_iff]
      refine ⟨d, tl, rfl, ?_, htl⟩
      simp [isEmpty_false_of_ne_nil d hd.1, hd.2]
  · intro h
    rw [specEmail, splitAnyAt_iff] at h
    obtain ⟨l1, l2, rfl, hf, hg⟩ := h
    rw [domainSplit, splitAnyAt_iff] at hg
    obtain ⟨d, tl, rfl, hd, htl⟩ := hg
    simp only [Bool.and_eq_true, Bool.not_eq_true'] at hf hd
    rw [matches_seq]
    refine ⟨l1, '@' :: (d ++ '.' :: tl), by simp, ?_, ?_⟩
    · rw [matches_plus_cls]
      exact ⟨ne_nil_of_isEmpty_false l1 hf.1, hf.2⟩
    · rw [matches_seq]
      refine ⟨['@'], d ++ '.' :: tl, rfl, (matches_chr '@' ['@']).mpr rfl, ?_⟩
      rw [matches_seq]
      refine ⟨d, '.' :: tl, rfl, ?_, ?_⟩
      · rw [matches_plus_cls]
        exact ⟨ne_nil_of_isEmpty_false d hd.1, hd.2⟩
      · rw [matches_seq]
        exact ⟨['.'], tl, rfl, (matches_chr '.' ['.']).mpr rfl,
          (matches_tld tl).mpr htl⟩

theorem matches_pattern_iff (l : List Char) :
    reMatches email_phone_pattern l = true ↔ specIdentifierOk l = true := by
  rw [email_phone_pattern, matches_alt, specIdentifierOk]
  simp only [Bool.or_eq_true]
  exact or_congr (matches_phoneRE l) (matches_emailRE l)

theorem reMatch_pattern_iff (l : List Char) :
    reMatch email_phone_pattern l = true ↔
      (specIdentifierOk l = true ∨
       (l.getLast? = some '\n' ∧ specIdentifierOk l.dropLast = true)) := by
  rw [reMatch]
  simp only [Bool.or_eq_true]
  apply or_congr (matches_pattern_iff l)
  cases h : l.getLast? with
  | none => simp
  | some c =>
    simp only [Bool.and_eq_true, beq_iff_eq, Option.some.injEq]
    exact and_congr Iff.rfl (matches_pattern_iff l.dropLast)

theorem validate_iff_raw (u p : String) :
    (validate_credentials u p).1 = true ↔
      (reMatch email_phone_pattern u.data = true ∧ 8 ≤ p.length) := by
  rw [validate_credentials]
  cases hm : reMatch email_phone_pattern u.data with
  | false => simp [hm]
  | true =>
    simp only [hm, Bool.not_true, Bool.false_eq_true, if_false, true_and]
    by_cases hp : p.length < 8
    · rw [if_pos hp]
      simp
      omega
    · rw [if_neg hp]
      simp
      omega

theorem validate_true_eq (u p : String)
    (h : (validate_credentials u p).1 = true) :
    validate_credentials u p = (true, []) := by
  rw [validate_credentials] at h ⊢
  by_cases h1 : (!(reMatch email_phone_pattern u.data)) = true
  · rw [if_pos h1] at h
    simp at h
  · rw [if_neg h1] at h ⊢
    by_cases h2 : p.length < 8
    · rw [if_pos h2] at h
      simp at h
    · rw [if_neg h2]

/-! ### Claim theorems -/

/-- C1 counterexample: the claimed iff fails on a concrete input.  With the
8-character password "password", `validate_credentials` accepts the
identifier "user@example.com\n", although that identifier does not match the
phone or email pattern (it carries a trailing newline): CPython `$` also
matches just before a final newline. -/
theorem validate_newline_counterexample :
    (validate_credentials "user@example.com\n" "password").1 = true ∧
      specIdentifierOk ("user@example.com\n".data) = false :=
  ⟨by decide, by decide⟩

/-- C1 (amended): `validate_credentials` returns true iff the password has
length at least 8 and the identifier either matches the phone/email pattern
exactly, or consists of such a match followed by a single trailing newline
(the extra case allowed by CPython's `$` anchor). -/
theorem validate_credentials_spec (u p : String) :
    (validate_credentials u p).1 = true ↔
      ((specIdentifierOk u.data = true ∨
        (u.data.getLast? = some '\n' ∧ specIdentifierOk u.data.dropLast = true)) ∧
       8 ≤ p.length) := by
  rw [validate_iff_raw]
  exact and_congr (reMatch_pattern_iff u.data) Iff.rfl

/-- C2: if the credentials pass validation and any driver call inside
`login`'s try block raises, `login` returns false (it never raises: it is a
total function of the fault environment) and exactly one error-level log
line is emitted. -/
theorem login_fault_safe (u p : String) (env : DriverEnv)
    (hv : (validate_credentials u p).1 = true)
    (hf : envHasFault env = true) :
    (login u p env).1 = false ∧ errorCount (login u p env).2.1 = 1 := by
  have hveq := validate_true_eq u p hv
  obtain ⟨f1, f2, f3, f4, f5, f6, f7, f8, f9, f10, url⟩ := env
  cases f1 with
  | some e =>
      simp [login, hveq, errorCount, isErrorEntry, loginFailedLog, errEntry,
        infoEntry, List.countP_cons, List.countP_nil]
  | none =>
    cases f2 with
    | some e =>
        simp [login, hveq, errorCount, isErrorEntry, loginFailedLog, errEntry,
          infoEntry, List.countP_cons, List.countP_nil]
    | none =>
      cases f3 with
      | some e =>
          simp [login, hveq, errorCount, isErrorEntry, loginFailedLog, errEntry,
            infoEntry, List.countP_cons, List.countP_nil]
      | none =>
        cases f4 with
        | some e =>
            simp [login, hveq, errorCount, isErrorEntry, loginFailedLog, errEntry,
              infoEntry, List.countP_cons, List.countP_nil]
        | none =>
          cases f5 with
          | some e =>
              simp [login, hveq, errorCount, isErrorEntry, loginFailedLog, errEntry,
                infoEntry, List.countP_cons, List.countP_nil]
          | none =>
            cases f6 with
            | some e =>
                simp [login, hveq, errorCount, isErrorEntry, loginFailedLog, errEntry,
                  infoEntry, List.countP_cons, List.countP_nil]
            | none =>
              cases f7 with
              | some e =>
                  simp [login, hveq, errorCount, isErrorEntry, loginFailedLog, errEntry,
                    infoEntry, List.countP_cons, List.countP_nil]
              | none =>
                cases f8 with
                | some e =>
                    simp [login, hveq, errorCount, isErrorEntry, loginFailedLog, errEntry,
                      infoEntry, List.countP_cons, List.countP_nil]
                | none =>
                  cases f9 with
                  | some e =>
                      simp [login, hveq, errorCount, isErrorEntry, loginFailedLog, errEntry,
                        infoEntry, List.countP_cons, List.countP_nil]
                  | none =>
                    cases f10 with
                    | some e =>
                        simp [login, hveq, errorCount, isErrorEntry, loginFailedLog,
                          errEntry, infoEntry, List.countP_cons, List.countP_nil]
                    | none =>
                        simp [envHasFault] at hf

/-- C2 witness: with valid credentials and a fault injected into navigation,
`login` returns false with exactly one error log line. -/
theorem login_fault_safe_witness :
    (login "user@example.com" "password"
        ⟨some "boom", none, none, none, none, none, none, none, none, none, ""⟩).1
      = false ∧
      errorCount (login "user@example.com" "password"
        ⟨some "boom", none, none, none, none, none, none, none, none, none, ""⟩).2.1
      = 1 :=
  login_fault_safe "user@example.com" "password"
    ⟨some "boom", none, none, none, none, none, none, none, none, none, ""⟩
    (by decide) (by decide)

/-- C7: when validation fails, `login` returns false immediately: it emits
only validation's own log lines and performs no browser action at all (in
particular no navigation, no field entry, no click and no quit, so the
session is left untouched). -/
theorem login_invalid_no_browser_action (u p : String) (env : DriverEnv)
    (hv : (validate_credentials u p).1 = false) :
    login u p env = (false, (validate_credentials u p).2, []) := by
  simp [login, hv]

/-- C7 witness at the identifier "12345" (neither phone- nor email-shaped). -/
theorem login_invalid_no_browser_action_witness :
    login "12345" "password" idleDriverEnv =
      (false, (validate_credentials "12345" "password").2, []) :=
  login_invalid_no_browser_action "12345" "password" idleDriverEnv (by decide)

/-- C10: appending a single newline to an identifier the pattern accepts
still passes validation when the password has length at least 8, because the
anchored CPython match also accepts a match ending just before a final
newline. -/
theorem validate_trailing_newline (u p : String)
    (hu : specIdentifierOk u.data = true) (hp : 8 ≤ p.length) :
    (validate_credentials (u ++ "\n") p).1 = true := by
  rw [validate_iff_raw]
  refine ⟨?_, hp⟩
  rw [reMatch_pattern_iff]
  right
  rw [String.data_append]
  constructor
  · rw [show ("\n" : String).data = ['\n'] from rfl]
    exact List.getLast?_concat u.data
  · rw [show ("\n" : String).data = ['\n'] from rfl, List.dropLast_concat]
    exact hu

/-- C10 witness: "user@example.com" plus a newline with an 8-char password. -/
theorem validate_trailing_newline_witness :
    (validate_credentials ("user@example.com" ++ "\n") "password").1 = true :=
  validate_trailing_newline "user@example.com" "password" (by decide) (by decide)

/-- C3: the argument actually passed to the outcome wait is the Python `or`
of the two condition objects, and since the first (URL-contains) object is
truthy, the composed condition IS the URL-contains condition: the
challenge-presence condition is evaluated eagerly and discarded, and the wait
predicate is equivalent to waiting on the URL condition alone on every page
state. -/
theorem wait_condition_only_url :
    loginWaitCondition = ECond.urlContains "feed" ∧
      ∀ st : PageState,
        evalCond loginWaitCondition st = evalCond (ECond.urlContains "feed") st :=
  ⟨rfl, fun _ => rfl⟩

/-- C4: whenever the agent's construction succeeds, `main` calls `close`
exactly once, whatever the login outcome or injected faults are. -/
theorem main_closes_once (menv : MainEnv)
    (h : menv.constructFault = none) :
    (main menv).closeCalls = 1 := by
  simp [main, h]

/-- C4 witness: a fault-free run closes exactly once. -/
theorem main_closes_once_witness :
    (main ⟨none, none, none, idleDriverEnv, none⟩).closeCalls = 1 :=
  main_closes_once ⟨none, none, none, idleDriverEnv, none⟩ rfl

/-- C5 counterexample: an exception raised by `close()` inside the `finally`
block is NOT caught by the earlier `except` clause and escapes `main`, so
`main` can raise and the program does not always complete normally. -/
theorem main_close_fault_escapes :
    (main ⟨none, none, none, idleDriverEnv, some "quit failed"⟩).raised =
      some "quit failed" := by
  decide

/-- C5 (amended): an exception escaping the agent's construction is caught at
the outermost level of `main` and logged, and in that case `main` completes
normally; but an exception escaping `close()` in the cleanup block propagates
out of `main` (it is the only way `main` raises). -/
theorem main_fault_handling (menv : MainEnv) :
    (main menv).raised =
      (match menv.constructFault with
       | some _ => none
       | none => menv.quitFault) ∧
    ∀ e, menv.constructFault = some e →
      errEntry ("Unexpected error: " ++ e) ∈ (main menv).logs := by
  constructor
  · cases h : menv.constructFault with
    | some e => simp [main, h]
    | none =>
      cases hq : menv.quitFault with
      | some e => simp [main, h, hq, close]
      | none => simp [main, h, hq, close]
  · intro e he
    simp [main, he]

/-- C5 witness: a constructor fault is caught and logged, and `main` then
completes normally. -/
theorem main_fault_handling_witness :
    (main ⟨none, none, some "ctor boom", idleDriverEnv, none⟩).raised = none ∧
      errEntry ("Unexpected error: " ++ "ctor boom") ∈
        (main ⟨none, none, some "ctor boom", idleDriverEnv, none⟩).logs := by
  have h := main_fault_handling ⟨none, none, some "ctor boom", idleDriverEnv, none⟩
  exact ⟨h.1, h.2 "ctor boom" rfl⟩

/-- C6: after a fault-free submit-and-wait, `login` classifies the result by
re-reading the current URL: it returns true and its last log line reports
success exactly when the URL contains "feed"; otherwise it returns false and
its last log line is the "requires additional verification" warning. -/
theorem login_classifies_by_url (u p : String) (env : DriverEnv)
    (hv : (validate_credentials u p).1 = true)
    (hnf : envHasFault env = false) :
    (login u p env).1 = containsSub env.currentUrl.data "feed".data ∧
      (login u p env).2.1.getLast? =
        some (if containsSub env.currentUrl.data "feed".data
              then infoEntry "Successfully logged in!"
              else warnEntry "Login may require additional verification") := by
  have hveq := validate_true_eq u p hv
  obtain ⟨f1, f2, f3, f4, f5, f6, f7, f8, f9, f10, url⟩ := env
  cases f1 with
  | some e => simp [envHasFault] at hnf
  | none =>
    cases f2 with
    | some e => simp [envHasFault] at hnf
    | none =>
      cases f3 with
      | some e => simp [envHasFault] at hnf
      | none =>
        cases f4 with
        | some e => simp [envHasFault] at hnf
        | none =>
          cases f5 with
          | some e => simp [envHasFault] at hnf
          | none =>
            cases f6 with
            | some e => simp [envHasFault] at hnf
            | none =>
              cases f7 with
              | some e => simp [envHasFault] at hnf
              | none =>
                cases f8 with
                | some e => simp [envHasFault] at hnf
                | none =>
                  cases f9 with
                  | some e => simp [envHasFault] at hnf
                  | none =>
                    cases f10 with
                    | some e => simp [envHasFault] at hnf
                    | none =>
                      cases hc : containsSub url.data "feed".data with
                      | true =>
                          refine ⟨?_, ?_⟩ <;>
                            simp [login, hveq, hc, infoEntry, warnEntry]
                      | false =>
                          refine ⟨?_, ?_⟩ <;>
                            simp [login, hveq, hc, infoEntry, warnEntry]

/-- C6 witness: with the post-login URL present, `login` returns true. -/
theorem login_classifies_by_url_witness :
    (login "user@example.com" "password"
        ⟨none, none, none, none, none, none, none, none, none, none,
          "https://www.linkedin.com/feed/"⟩).1 = true := by
  have h := login_classifies_by_url "user@example.com" "password"
    ⟨none, none, none, none, none, none, none, none, none, none,
      "https://www.linkedin.com/feed/"⟩ (by decide) (by decide)
  rw [h.1]
  decide

/-- C8: the `quit` call in `close` is guarded by the driver-presence check
(quit happens exactly when a session exists, so `close` with no session is a
no-op apart from logging and never consults `quit` at all), and the
completion log line is emitted on every call regardless of presence. -/
theorem close_guard_and_log (present : Bool) :
    close present none = (none, [infoEntry "Browser session closed"], present) ∧
      ∀ qf : Option String,
        close false qf = (none, [infoEntry "Browser session closed"], false) := by
  constructor
  · cases present <;> rfl
  · intro qf
    rfl

/-- C9: `main` reads the credentials from the environment with hard-coded
placeholder defaults: when a variable is unset it proceeds with the literal
placeholder string instead of failing. -/
theorem main_placeholder_defaults (menv : MainEnv)
    (hu : menv.envUsername = none) (hp : menv.envPassword = none) :
    (main menv).usedUsername = "your_email_or_phone" ∧
      (main menv).usedPassword = "your_password" := by
  cases h : menv.constructFault <;> simp [main, h, hu, hp]

/-- C9 witness: with both variables unset the placeholders are used. -/
theorem main_placeholder_defaults_witness :
    (main ⟨none, none, none, idleDriverEnv, none⟩).usedUsername =
        "your_email_or_phone" ∧
      (main ⟨none, none, none, idleDriverEnv, none⟩).usedPassword =
        "your_password" :=
  main_placeholder_defaults ⟨none, none, none, idleDriverEnv, none⟩ rfl rfl

end LinkedIn
